import Mathlib

/-
Verification of the handlertest package (handlertest.go): a declarative
HTTP-handler test runner. The embedding below translates the package's data
model and its three core operations — httpRequest (request building),
assertResponse (response assertion), and Run (suite orchestration) — into
Lean, together with models of the external collaborators the code calls:
the request constructor of net/http/httptest, the header map of net/http,
and strings.SplitN.
-/

namespace Handlertest

/-- Go struct `Request` (handlertest.go): describes the request to fire at
the HTTP handler. `headers` is an ordered sequence of "Key: Value" strings. -/
structure Request where
  method : String
  url : String
  body : String
  headers : List String
deriving DecidableEq

/-- Go struct `Response` (handlertest.go): the expected response. All fields
are optional; absence is encoded as the zero value (0 resp. ""). -/
structure Response where
  code : Int
  body : String
deriving DecidableEq

/-- Go struct `TestCase` (handlertest.go). -/
structure TestCase where
  name : String
  request : Request
  response : Response
deriving DecidableEq

/-- Model of a single-read body stream (Go: strings.NewReader wrapped by the
request; `pos` is the read position, so a full read consumes the stream). -/
structure BodyStream where
  data : List Char
  pos : Nat
deriving DecidableEq

/-- Model of io/ioutil.ReadAll on a body stream: returns everything from the
current position and leaves the stream fully consumed. -/
def readAllStream (s : BodyStream) : List Char × BodyStream :=
  (s.data.drop s.pos, ⟨s.data, s.data.length⟩)

/-- Model of the built *http.Request: method, target, optional body stream,
and the header map (as an association list with set-and-replace semantics). -/
structure HTTPRequest where
  method : String
  url : String
  body : Option BodyStream
  header : List (String × String)
deriving DecidableEq

/-- Outcome of the build step (httpRequest in handlertest.go): a request, a
panic raised by the external request constructor on an unparsable target, or
a process exit raised by the malformed-header check (os.Exit(1)). -/
inductive BuildResult where
  | ok (req : HTTPRequest)
  | panicked
  | exited (code : Nat)
deriving DecidableEq

/-- A build result that does not yield a request kills the whole process:
os.Exit terminates it directly, and an unrecovered panic aborts it. -/
def BuildResult.terminatesProcess : BuildResult → Bool
  | .ok _ => false
  | .panicked => true
  | .exited _ => true

/-- Boolean prefix test on strings via their character lists. -/
def strHasPrefix (s p : String) : Bool := p.toList.isPrefixOf s.toList

/-- Modelled from the spec: the Request Builder hands the URL to the external
request constructor (net/http/httptest.NewRequest, outside this repository),
which panics on a target it cannot parse. Per the spec the URL "may be
absolute or a path-only form resolved against a synthetic base" and "invalid
URLs fail the build step"; this model accepts exactly the path-only form
(leading slash) and absolute http/https forms, and every other target — in
particular the empty string — fails to parse. -/
def parseTargetOk (target : String) : Bool :=
  strHasPrefix target "/" || strHasPrefix target "http://" ||
    strHasPrefix target "https://"

/-- Split a character list at the first occurrence of `sep`: returns the part
before and the part after, or none when `sep` does not occur. -/
def splitFirst (sep : List Char) : List Char → Option (List Char × List Char)
  | [] => none
  | c :: cs =>
      if sep.isPrefixOf (c :: cs) then some ([], (c :: cs).drop sep.length)
      else
        match splitFirst sep cs with
        | some (a, b) => some (c :: a, b)
        | none => none

/-- Model of strings.SplitN(s, sep, 2) for a non-empty separator: split at
the first occurrence of sep, leaving the remainder unsplit; a string that
does not contain sep yields the one-element list [s]. -/
def splitN2 (s sep : String) : List String :=
  match splitFirst sep.toList s.toList with
  | some (a, b) => [⟨a⟩, ⟨b⟩]
  | none => [s]

/-- The loop guard of httpRequest: true iff strings.SplitN(h, ": ", 2)
produced two parts, i.e. iff the header string contains the separator. -/
def hasHeaderSep (h : String) : Bool := (splitN2 h ": ").length == 2

/-- Valid header-field byte per net/textproto: an HTTP token character. -/
def validHeaderFieldChar (c : Char) : Bool :=
  c.isAlphanum ||
    [33, 35, 36, 37, 38, 39, 42, 43, 45, 46, 94, 95, 96, 124, 126].contains
      c.toNat

/-- Canonicalization pass of net/textproto: uppercase the first letter and
every letter following a hyphen, lowercase the rest. -/
def canonicalizeChars : Bool → List Char → List Char
  | _, [] => []
  | upper, c :: cs =>
      (if upper then c.toUpper else c.toLower) :: canonicalizeChars (c == '-') cs

/-- Model of net/textproto.CanonicalMIMEHeaderKey: canonicalize when every
character is a valid header-field byte, otherwise return the key unchanged. -/
def canonicalMIMEHeaderKey (s : String) : String :=
  if s.toList.all validHeaderFieldChar then ⟨canonicalizeChars true s.toList⟩
  else s

/-- Model of net/http.Header.Set: canonicalize the key and replace any
existing values for it with the single new value. -/
def headerSet (hs : List (String × String)) (k v : String) :
    List (String × String) :=
  let ck := canonicalMIMEHeaderKey k
  (hs.filter fun p => p.fst != ck) ++ [(ck, v)]

/-- The header loop of httpRequest (handlertest.go): for each header string,
split on the first ": "; on a malformed header (split does not yield two
parts) the code prints to stderr and calls os.Exit(1), modelled as none;
otherwise Header.Set is applied and the loop continues. -/
def applyHeaders (acc : List (String × String)) :
    List String → Option (List (String × String))
  | [] => some acc
  | h :: rest =>
      let sp := splitN2 h ": "
      if sp.length != 2 then none
      else applyHeaders (headerSet acc (sp.headD "") (sp.getD 1 "")) rest

/-- Go func `httpRequest` (handlertest.go): attach a body stream only for a
non-empty body, construct the request via the external constructor (which
defaults an empty method to "GET" and panics on an unparsable target), then
apply the header loop (which exits the process on a malformed header). -/
def httpRequest (req : Request) : BuildResult :=
  let body : Option BodyStream :=
    if req.body != "" then some ⟨req.body.toList, 0⟩ else none
  if parseTargetOk req.url then
    match applyHeaders [] req.headers with
    | some hs =>
        .ok { method := if req.method == "" then "GET" else req.method,
              url := req.url, body := body, header := hs }
    | none => .exited 1
  else .panicked

/-- The response captured by the httptest.ResponseRecorder after the handler
under test has been invoked: its status code and accumulated body. -/
structure CapturedResponse where
  code : Int
  body : String
deriving DecidableEq

/-- A mismatch reported through t.Errorf by assertResponse: either the code
comparison or the body comparison, each carrying got and expected values. -/
inductive Report where
  | codeMismatch (got expected : Int)
  | bodyMismatch (got expected : String)
deriving DecidableEq

def isCodeReport : Report → Bool
  | .codeMismatch _ _ => true
  | .bodyMismatch _ _ => false

def isBodyReport : Report → Bool
  | .codeMismatch _ _ => false
  | .bodyMismatch _ _ => true

/-- Go func `isZero` (handlertest.go) at type int. -/
def isZeroInt (i : Int) : Bool := i == 0

/-- Go func `isZero` (handlertest.go) at type string. -/
def isZeroString (s : String) : Bool := s == ""

/-- The expCode computation of assertResponse (handlertest.go): the expected
code, replaced by http.StatusOK (200) when it is the zero value. -/
def effectiveCode (res : Response) : Int :=
  if isZeroInt res.code then 200 else res.code

/-- Go func `assertResponse` (handlertest.go): compare the recorded code
against the effective expected code and, only for a non-empty expected body,
the recorded body against it. Each comparison reports independently. -/
def assertResponse (rec : CapturedResponse) (res : Response) : List Report :=
  (if rec.code != effectiveCode res
     then [Report.codeMismatch rec.code (effectiveCode res)] else []) ++
  (if !isZeroString res.body && rec.body != res.body
     then [Report.bodyMismatch rec.body res.body] else [])

/-- The handler under test together with the recorder: invoking it on the
built request yields the captured response (external collaborator). -/
abbrev Handler := HTTPRequest → CapturedResponse

/-- How a run is cut short: os.Exit with a code, or an unrecovered panic. -/
inductive Halt where
  | exitCode (n : Nat)
  | panicked
deriving DecidableEq

/-- What one case contributed to the host framework: a sub-test registered
under its name holding the reports attributed to it, or an inline execution
whose reports are attributed to the caller's enclosing test. -/
inductive CaseOutcome where
  | subtest (name : String) (reports : List Report)
  | inline (reports : List Report)
deriving DecidableEq

/-- Result of Run over a whole suite: every case completed, or the process
died inside some case (the completed prefix and the halting case's name are
recorded; no further case runs). -/
inductive RunResult where
  | completed (outcomes : List CaseOutcome)
  | terminated (done : List CaseOutcome) (name : String) (halt : Halt)
deriving DecidableEq

/-- The per-case closure f of Run (handlertest.go): build the request (which
may exit or panic), invoke the handler on it, and assert the response,
yielding the reports made through the reporter. -/
def caseBody (h : Handler) (tc : TestCase) : Except Halt (List Report) :=
  match httpRequest tc.request with
  | .ok req => .ok (assertResponse (h req) tc.response)
  | .exited n => .error (.exitCode n)
  | .panicked => .error .panicked

/-- Go func `Run` (handlertest.go): iterate the cases in input order; a case
with a non-empty name runs f inside t.Run under that name, an unnamed case
runs f inline; a process-killing build failure halts the whole iteration. -/
def Run (h : Handler) : List TestCase → RunResult
  | [] => .completed []
  | tc :: rest =>
      match caseBody h tc with
      | .error halt => .terminated [] tc.name halt
      | .ok reports =>
          let outcome := if tc.name != "" then CaseOutcome.subtest tc.name reports
                         else CaseOutcome.inline reports
          match Run h rest with
          | .completed os => .completed (outcome :: os)
          | .terminated os n halt => .terminated (outcome :: os) n halt

/-- The outcome a case contributes when its build succeeds; the error branch
is a placeholder, only ever taken outside the builds-succeed hypothesis. -/
def caseOutcome (h : Handler) (tc : TestCase) : CaseOutcome :=
  match caseBody h tc with
  | .ok reports =>
      if tc.name != "" then .subtest tc.name reports else .inline reports
  | .error _ => .inline []

/-- True iff the build step yields a request (no exit, no panic). -/
def buildOk (req : Request) : Bool :=
  match httpRequest req with
  | .ok _ => true
  | _ => false

/-- A handler that ignores the request and produces a fixed response. -/
def constHandler (code : Int) (body : String) : Handler := fun _ => ⟨code, body⟩

/-- C1: for an expected response whose code field is the zero value, the
assertion engine compares the actual code against the effective expected
code 200; for a non-zero code field it compares against that code verbatim;
and the code comparison runs in every invocation — the code-mismatch reports
of assertResponse are exactly characterized, for all inputs, by whether the
actual code differs from the effective expected code. -/
theorem C1_effective_code_check (rec : CapturedResponse) (res : Response) :
    effectiveCode res = (if res.code = 0 then 200 else res.code) ∧
    (assertResponse rec res).filter isCodeReport =
      (if rec.code ≠ effectiveCode res
        then [Report.codeMismatch rec.code (effectiveCode res)] else []) := by
  constructor
  · simp [effectiveCode, isZeroInt]
  · simp only [assertResponse, List.filter_append]
    by_cases hc : rec.code = effectiveCode res <;>
      by_cases hb : (!isZeroString res.body && rec.body != res.body) = true <;>
        simp [hc, hb, isCodeReport]

/-- C2: for an expected response whose body field is the empty string the
assertion engine never reports a body mismatch, whatever the actual body is;
for a non-empty expected body a body mismatch is reported iff the actual
body differs from it. -/
theorem C2_body_wildcard (rec : CapturedResponse) (res : Response) :
    (assertResponse rec res).filter isBodyReport =
      (if res.body ≠ "" ∧ rec.body ≠ res.body
        then [Report.bodyMismatch rec.body res.body] else []) := by
  simp only [assertResponse, List.filter_append]
  by_cases hc : (rec.code != effectiveCode res) = true <;>
    by_cases hb : res.body = "" <;> by_cases hd : rec.body = res.body <;>
      simp [hc, hb, hd, isBodyReport, isZeroString]

/-- C7: the code check and the body check both run with no short-circuiting:
whenever the actual code differs from the effective expected code and the
expected body is non-empty and differs from the actual body, assertResponse
produces exactly the two independent mismatch reports, code first. -/
theorem C7_no_short_circuit (rec : CapturedResponse) (res : Response)
    (hc : rec.code ≠ effectiveCode res) (hb : res.body ≠ "")
    (hd : rec.body ≠ res.body) :
    assertResponse rec res =
      [Report.codeMismatch rec.code (effectiveCode res),
       Report.bodyMismatch rec.body res.body] := by
  simp [assertResponse, isZeroString, hc, hb, hd]

/-- Witness for C7: a concrete case in which both checks fail yields exactly
the two reports. -/
theorem C7_witness :
    assertResponse ⟨500, "x"⟩ ⟨404, "y"⟩ =
      [Report.codeMismatch 500 404, Report.bodyMismatch "x" "y"] :=
  C7_no_short_circuit ⟨500, "x"⟩ ⟨404, "y"⟩ (by decide) (by decide) (by decide)

/-- The header loop dies whenever some header string lacks the separator:
whatever headers were already applied, the loop reaches the first malformed
entry and exits instead of returning a header map. -/
theorem applyHeaders_malformed (hs : List String) :
    ∀ (acc : List (String × String)), (∃ hd ∈ hs, hasHeaderSep hd = false) →
      applyHeaders acc hs = none := by
  induction hs with
  | nil => intro acc hm; simp at hm
  | cons h rest ih =>
      intro acc hm
      obtain ⟨hd, hmem, hbad⟩ := hm
      rcases List.mem_cons.mp hmem with rfl | hmem
      · have hc : ((splitN2 hd ": ").length != 2) = true := by
          simpa [hasHeaderSep] using hbad
        simp [applyHeaders, hc]
      · by_cases hh : hasHeaderSep h = false
        · have hc : ((splitN2 h ": ").length != 2) = true := by
            simpa [hasHeaderSep] using hh
          simp [applyHeaders, hc]
        · have hh2 : ((splitN2 h ": ").length != 2) = false := by
            simp [hasHeaderSep] at hh
            simp [hh]
          simp [applyHeaders, hh2]
          exact ih _ ⟨hd, hmem, hbad⟩

/-- C3: for every request spec containing at least one header string without
the separator ": ", building the request never yields a request and kills
the whole process; whenever the URL parses (so the build reaches the header
loop) the outcome is precisely os.Exit(1), and a run whose next case holds
such a spec halts there with no per-case report and no sibling processed. -/
theorem C3_malformed_header_kills_process (req : Request)
    (hm : ∃ hd ∈ req.headers, hasHeaderSep hd = false) :
    (httpRequest req).terminatesProcess = true ∧
    (parseTargetOk req.url = true → httpRequest req = .exited 1) ∧
    (∀ (h : Handler) (name : String) (res : Response) (rest : List TestCase),
      parseTargetOk req.url = true →
      Run h ({ name := name, request := req, response := res } :: rest) =
        .terminated [] name (.exitCode 1)) := by
  have hnone : applyHeaders [] req.headers = none :=
    applyHeaders_malformed req.headers [] hm
  have hexit : parseTargetOk req.url = true → httpRequest req = .exited 1 := by
    intro hp
    simp [httpRequest, hp, hnone]
  refine ⟨?_, hexit, ?_⟩
  · by_cases hp : parseTargetOk req.url
    · simp [hexit hp, BuildResult.terminatesProcess]
    · simp [httpRequest, hp, BuildResult.terminatesProcess]
  · intro h name res rest hp
    simp [Run, caseBody, hexit hp]

/-- Witness for C3: a concrete malformed header exits the process and halts
the run before any report. -/
theorem C3_witness :
    httpRequest ⟨"GET", "/x", "", ["oops"]⟩ = .exited 1 ∧
    Run (constHandler 200 "") [⟨"t", ⟨"GET", "/x", "", ["oops"]⟩, ⟨0, ""⟩⟩] =
      .terminated [] "t" (.exitCode 1) :=
  ⟨(C3_malformed_header_kills_process ⟨"GET", "/x", "", ["oops"]⟩
      (by decide)).2.1 (by decide),
   (C3_malformed_header_kills_process ⟨"GET", "/x", "", ["oops"]⟩
      (by decide)).2.2 (constHandler 200 "") "t" ⟨0, ""⟩ [] (by decide)⟩

/-- C5 counterexample: the all-defaults case (every field left at its zero
value) run against a handler answering 200 with body "hi" does not complete
without termination: its build panics, because the empty URL fails request
construction in the external request constructor, and the run halts. -/
theorem C5_counterexample :
    Run (constHandler 200 "hi") [⟨"", ⟨"", "", "", []⟩, ⟨0, ""⟩⟩] =
      .terminated [] "" Halt.panicked := by decide

/-- C5 amended: with the minimal path URL "/" and every other field left at
its default, the single-case suite against a handler answering 200 with body
"hi" completes with no mismatch reported and no panic or termination: the
expected code defaults to 200 and the empty expected body is unchecked. -/
theorem C5_amended_minimal_case_passes :
    Run (constHandler 200 "hi") [⟨"", ⟨"", "/", "", []⟩, ⟨0, ""⟩⟩] =
      .completed [CaseOutcome.inline []] := by decide

/-- C6 counterexample: a request spec whose URL cannot be parsed does not
surface as a per-case report — the build panics and the panic escapes the
case, halting the run with no report against the offending case. -/
theorem C6_counterexample :
    httpRequest ⟨"GET", "notaurl", "", []⟩ = .panicked ∧
    Run (constHandler 200 "") [⟨"c", ⟨"GET", "notaurl", "", []⟩, ⟨0, ""⟩⟩] =
      .terminated [] "c" Halt.panicked := by decide

/-- C6 amended: for every request spec whose URL cannot be parsed, the build
step panics (the external request constructor's failure mode), so the
failure escapes the case and halts the whole run instead of being reported
against the offending case through the per-case reporting path. -/
theorem C6_unparsable_url_panics (req : Request)
    (hp : parseTargetOk req.url = false) :
    httpRequest req = .panicked ∧
    (∀ (h : Handler) (name : String) (res : Response) (rest : List TestCase),
      Run h ({ name := name, request := req, response := res } :: rest) =
        .terminated [] name Halt.panicked) := by
  have hb : httpRequest req = .panicked := by simp [httpRequest, hp]
  refine ⟨hb, ?_⟩
  intro h name res rest
  simp [Run, caseBody, hb]

/-- Witness for C6 amended: a concrete unparsable URL panics the build. -/
theorem C6_witness :
    httpRequest ⟨"POST", "xyz", "", []⟩ = .panicked :=
  (C6_unparsable_url_panics ⟨"POST", "xyz", "", []⟩ (by decide)).1

/-- C4: a case with a non-empty name contributes exactly one sub-test,
registered under exactly that name, whose body holds the reports of the
build-invoke-assert for that case; a case with an empty name registers no
sub-test and its build-invoke-assert runs inline, so its reports are
attributed to the caller's enclosing test context. -/
theorem C4_subtest_registration (h : Handler) (tc : TestCase)
    (req : HTTPRequest) (hb : httpRequest tc.request = .ok req) :
    Run h [tc] = .completed
      [if tc.name ≠ "" then
         CaseOutcome.subtest tc.name (assertResponse (h req) tc.response)
       else CaseOutcome.inline (assertResponse (h req) tc.response)] := by
  by_cases hn : tc.name = "" <;> simp [Run, caseBody, hb, hn]

/-- Witness for C4: a named case registers the sub-test "foo", an unnamed
one runs inline. -/
theorem C4_witness :
    Run (constHandler 200 "hi") [⟨"foo", ⟨"GET", "/h", "", []⟩, ⟨0, ""⟩⟩] =
      .completed [CaseOutcome.subtest "foo" []] ∧
    Run (constHandler 200 "hi") [⟨"", ⟨"GET", "/h", "", []⟩, ⟨0, ""⟩⟩] =
      .completed [CaseOutcome.inline []] := by
  constructor
  · rw [C4_subtest_registration (constHandler 200 "hi")
      ⟨"foo", ⟨"GET", "/h", "", []⟩, ⟨0, ""⟩⟩ ⟨"GET", "/h", none, []⟩
      (by decide)]
    decide
  · rw [C4_subtest_registration (constHandler 200 "hi")
      ⟨"", ⟨"GET", "/h", "", []⟩, ⟨0, ""⟩⟩ ⟨"GET", "/h", none, []⟩
      (by decide)]
    decide

/-- C9: when every case's build succeeds, the orchestrator processes the
cases strictly in input order, one outcome per case with no reordering, and
no case is skipped on account of an earlier case's mismatch reports — the
run completes with exactly the pointwise outcomes of the input sequence. -/
theorem C9_in_order (h : Handler) (tcs : List TestCase)
    (hb : ∀ tc ∈ tcs, buildOk tc.request = true) :
    Run h tcs = .completed (tcs.map (caseOutcome h)) := by
  revert hb
  induction tcs with
  | nil => intro _; simp [Run]
  | cons tc rest ih =>
      intro hb
      have htc : buildOk tc.request = true := hb tc (List.mem_cons_self tc rest)
      have hrest : Run h rest = .completed (rest.map (caseOutcome h)) :=
        ih fun tc' h' => hb tc' (List.mem_cons_of_mem tc h')
      unfold buildOk at htc
      cases hreq : httpRequest tc.request with
      | ok r => simp [Run, caseBody, caseOutcome, hreq, hrest]
      | panicked => rw [hreq] at htc; simp at htc
      | exited n => rw [hreq] at htc; simp at htc

/-- Witness for C9: a suite of two cases, the first of which reports a code
mismatch, still completes with both cases processed in order. -/
theorem C9_witness :
    Run (constHandler 400 "Bad")
      [⟨"a", ⟨"GET", "/foo", "", []⟩, ⟨500, ""⟩⟩,
       ⟨"b", ⟨"GET", "/foo", "", []⟩, ⟨400, ""⟩⟩] =
      .completed
        ([⟨"a", ⟨"GET", "/foo", "", []⟩, ⟨500, ""⟩⟩,
          ⟨"b", ⟨"GET", "/foo", "", []⟩, ⟨400, ""⟩⟩].map
            (caseOutcome (constHandler 400 "Bad"))) :=
  C9_in_order (constHandler 400 "Bad") _ (by decide)

/-- C8: for every spec that builds, a non-empty body field yields an
attached single-consumption stream holding exactly the body's characters —
a full read returns them all and a second read returns nothing — while an
empty body field attaches no stream at all rather than an empty one. -/
theorem C8_body_stream (spec : Request) (r : HTTPRequest)
    (hb : httpRequest spec = .ok r) :
    (spec.body = "" → r.body = none) ∧
    (spec.body ≠ "" →
      r.body = some ⟨spec.body.toList, 0⟩ ∧
      (readAllStream ⟨spec.body.toList, 0⟩).1 = spec.body.toList ∧
      (readAllStream (readAllStream ⟨spec.body.toList, 0⟩).2).1 = []) := by
  have hbody : r.body =
      (if spec.body != "" then some ⟨spec.body.toList, 0⟩ else none) := by
    unfold httpRequest at hb
    by_cases hp : parseTargetOk spec.url
    · simp only [hp, if_true] at hb
      cases hah : applyHeaders [] spec.headers with
      | none => rw [hah] at hb; simp at hb
      | some hs =>
          rw [hah] at hb
          obtain ⟨rm, ru, rb, rh⟩ := r
          simp [HTTPRequest.mk.injEq] at hb
          simp [hb]
    · simp [hp] at hb
  refine ⟨fun he => by simp [hbody, he], fun hne => ⟨by simp [hbody, hne], ?_, ?_⟩⟩
  · simp [readAllStream]
  · simp [readAllStream]

/-- Witness for C8: the claim's concrete POST spec with body "Hello world!"
yields that exact stream with single consumption, and a GET spec with an
empty body yields no stream. -/
theorem C8_witness :
    (HTTPRequest.body
        ⟨"POST", "https://emilepels.nl/bar",
          some ⟨"Hello world!".toList, 0⟩, []⟩ =
        some ⟨"Hello world!".toList, 0⟩ ∧
      (readAllStream ⟨"Hello world!".toList, 0⟩).1 = "Hello world!".toList ∧
      (readAllStream (readAllStream ⟨"Hello world!".toList, 0⟩).2).1 = []) ∧
    HTTPRequest.body ⟨"GET", "/g", none, []⟩ = none :=
  ⟨(C8_body_stream ⟨"POST", "https://emilepels.nl/bar", "Hello world!", []⟩
      ⟨"POST", "https://emilepels.nl/bar", some ⟨"Hello world!".toList, 0⟩, []⟩
      (by decide)).2 (by decide),
   (C8_body_stream ⟨"GET", "/g", "", []⟩ ⟨"GET", "/g", none, []⟩
      (by decide)).1 rfl⟩

/-- C10: when the header list consists of two well-formed entries whose keys
canonicalize to the same header name, the built request carries exactly one
entry for that name, holding the value of the later entry — headers are
applied in input order with set-and-replace semantics. -/
theorem C10_later_header_wins (spec : Request) (r : HTTPRequest)
    (h1 h2 k1 v1 k2 v2 : String)
    (hh : spec.headers = [h1, h2])
    (hs1 : splitN2 h1 ": " = [k1, v1])
    (hs2 : splitN2 h2 ": " = [k2, v2])
    (hk : canonicalMIMEHeaderKey k1 = canonicalMIMEHeaderKey k2)
    (hb : httpRequest spec = .ok r) :
    r.header = [(canonicalMIMEHeaderKey k2, v2)] := by
  have hah : applyHeaders [] spec.headers =
      some [(canonicalMIMEHeaderKey k2, v2)] := by
    rw [hh]
    simp [applyHeaders, hs1, hs2, headerSet, hk]
  unfold httpRequest at hb
  by_cases hp : parseTargetOk spec.url
  · rw [if_pos hp, hah] at hb
    obtain ⟨rm, ru, rb, rh⟩ := r
    simp [HTTPRequest.mk.injEq] at hb
    simp [hb]
  · simp [hp] at hb

/-- Witness for C10: two Content-Type entries differing in capitalization
leave a single canonical entry with the later value. -/
theorem C10_witness :
    HTTPRequest.header ⟨"GET", "/x", none, [("Content-Type", "b")]⟩ =
      [("Content-Type", "b")] :=
  C10_later_header_wins
    ⟨"GET", "/x", "", ["Content-Type: a", "content-type: b"]⟩
    ⟨"GET", "/x", none, [("Content-Type", "b")]⟩
    "Content-Type: a" "content-type: b" "Content-Type" "a" "content-type" "b"
    rfl (by decide) (by decide) (by decide) (by decide)

end Handlertest
